import Mathlib

/-!
Shallow embedding of the folder-size analyzer (src/src/App.tsx and
src/src/lib/utils.ts) and proofs about its listing, scanning and
formatting behaviour.

Modelling conventions:
* `FileSystemItem` mirrors the interface in src/src/lib/utils.ts; byte
  sizes are natural numbers.
* `sortItems` in App.tsx is `[...itemsToSort].sort(cmp)` where `cmp`
  returns -1 / 1 for the directory cases and `b.size - a.size`
  otherwise.  The comparator is consistent (it is induced by a total
  preorder), and ECMAScript 2019 specifies `Array.prototype.sort` as a
  stable sort, whose output on a consistent comparator is the unique
  stable sorting of the input.  We therefore model it by Mathlib's
  stable `List.insertionSort` over the preorder `itemRel` induced by
  the comparator.  The spread copy means the argument array is never
  mutated, which the purely functional embedding reflects.
-/

structure FileSystemItem where
  name : String
  path : String
  size : Nat
  isDirectory : Bool
deriving Repr, DecidableEq

/-- The comparator body of `sortItems` (App.tsx lines 19-25): negative
when `a` sorts before `b`.  The directory branches return -1 / 1 and the
final branch returns `b.size - a.size`. -/
def compareItems (a b : FileSystemItem) : Int :=
  if a.isDirectory && !b.isDirectory then -1
  else if !a.isDirectory && b.isDirectory then 1
  else (b.size : Int) - (a.size : Int)

/-- `a` sorts no later than `b` under the comparator. -/
def itemLE (a b : FileSystemItem) : Bool :=
  decide (compareItems a b ≤ 0)

/-- The total preorder induced by the comparator. -/
def itemRel (a b : FileSystemItem) : Prop :=
  itemLE a b = true

instance : DecidableRel itemRel :=
  fun a b => inferInstanceAs (Decidable (itemLE a b = true))

lemma itemRel_iff (a b : FileSystemItem) :
    itemRel a b ↔
      (a.isDirectory = true ∧ b.isDirectory = false) ∨
        (a.isDirectory = b.isDirectory ∧ b.size ≤ a.size) := by
  unfold itemRel itemLE compareItems
  cases ha : a.isDirectory <;> cases hb : b.isDirectory <;> simp

instance : IsTotal FileSystemItem itemRel where
  total a b := by
    rw [itemRel_iff, itemRel_iff]
    cases ha : a.isDirectory <;> cases hb : b.isDirectory <;> simp [ha, hb] <;> omega

instance : IsTrans FileSystemItem itemRel where
  trans a b c hab hbc := by
    rw [itemRel_iff] at hab hbc ⊢
    rcases hab with ⟨ha, hb⟩ | ⟨hab, hsab⟩ <;>
      rcases hbc with ⟨hb', hc⟩ | ⟨hbc, hsbc⟩
    · rw [hb] at hb'; cases hb'
    · exact Or.inl ⟨ha, hbc ▸ hb⟩
    · exact Or.inl ⟨hab ▸ hb', hc⟩
    · exact Or.inr ⟨hab.trans hbc, hsbc.trans hsab⟩

/-- `sortItems` (App.tsx lines 18-26): a fresh, stably sorted copy of the
input, directories first and then descending size. -/
def sortItems (itemsToSort : List FileSystemItem) : List FileSystemItem :=
  List.insertionSort itemRel itemsToSort

/-- Two same-kind, equal-size, distinct-name files used to exhibit the
absence of a name tie-break. -/
def tieItemA : FileSystemItem := ⟨"a", "/r/a", 10, false⟩

def tieItemB : FileSystemItem := ⟨"b", "/r/b", 10, false⟩

/-- C1: the sorted listing places every directory before every
non-directory, and within each of the two groups sizes are
non-increasing; a directory precedes a file regardless of size. -/
theorem sortItems_directoriesFirst_sizesDescending (xs : List FileSystemItem) :
    (sortItems xs).Pairwise fun a b =>
      (b.isDirectory = true → a.isDirectory = true) ∧
        (a.isDirectory = b.isDirectory → b.size ≤ a.size) := by
  have h : (sortItems xs).Pairwise itemRel :=
    List.sorted_insertionSort itemRel xs
  refine h.imp fun {a b} hab => ?_
  rw [itemRel_iff] at hab
  constructor
  · intro hbdir
    rcases hab with ⟨ha, hb⟩ | ⟨he, _⟩
    · exact ha
    · rw [he]; exact hbdir
  · intro he
    rcases hab with ⟨ha, hb⟩ | ⟨_, hs⟩
    · rw [ha, hb] at he; cases he
    · exact hs

/-- C7 counterexample: ties between same-kind equal-size entries are NOT
broken by name: with equal sizes, input order `[b, a]` is preserved, the
two inputs are permutations of each other (same kind/size/name
multiset), yet the two outputs differ, so the output order is not
uniquely determined by (kind, size, name). -/
theorem sortItems_no_name_tiebreak :
    sortItems [tieItemB, tieItemA] = [tieItemB, tieItemA] ∧
      List.Perm [tieItemB, tieItemA] [tieItemA, tieItemB] ∧
      sortItems [tieItemB, tieItemA] ≠ sortItems [tieItemA, tieItemB] := by
  refine ⟨by decide, List.Perm.swap _ _ _, by decide⟩

/-- C7 amended: the final listing is sorted directories-first then size
descending, it is a permutation of the input, and equal or tied pairs
keep their input order (stability); ties are broken by input position,
not by name. -/
theorem sortItems_deterministic_stable (xs : List FileSystemItem) :
    (sortItems xs).Pairwise itemRel ∧
      List.Perm (sortItems xs) xs ∧
      ∀ x y, itemRel x y → List.Sublist [x, y] xs →
        List.Sublist [x, y] (sortItems xs) :=
  ⟨List.sorted_insertionSort itemRel xs,
    List.perm_insertionSort itemRel xs,
    fun _ _ h hsub => List.pair_sublist_insertionSort h hsub⟩

/-- C9: `sortItems` returns a permutation of its input — same elements
with the same multiplicities, nothing added or dropped — and (being a
spread copy sorted functionally) never mutates the input. -/
theorem sortItems_perm_preserves_input (xs : List FileSystemItem) :
    List.Perm (sortItems xs) xs ∧
      ∀ a, (sortItems xs).count a = xs.count a :=
  ⟨List.perm_insertionSort itemRel xs,
    fun a => (List.perm_insertionSort itemRel xs).count_eq a⟩

lemma sortItems_idem (xs : List FileSystemItem) :
    sortItems (sortItems xs) = sortItems xs :=
  (List.sorted_insertionSort itemRel xs).insertionSort_eq

/-!
The scan (`scanFolder`, App.tsx lines 28-117), modelled from the point
where a folder has been selected:
* `listing` is the outcome of `await readDir(selected)`; a thrown error
  is `Except.error` and lands in the outer catch (lines 111-116).
* `probe` is the combined fallible step `join(selected, name)` followed
  by `size(fullPath)` inside the per-entry try (lines 74-96); `none`
  means the step threw and the catch incremented `failedCount`.
* `sig i` is the value of `abortController.signal.aborted` as observed
  at the top of iteration `i` of the entry loop (line 65); the signal is
  flipped externally, so it is an arbitrary function of the iteration.
* `probes` is the trace of full paths on which the join+size step was
  started, recorded to state cancellation and hidden-entry claims.
* `uiItems` mirrors the React `items` state: updated at batch points
  (lines 90-92) and, when the loop is not aborted, by the final
  `setItems(sortItems(newItems))` (line 100).
-/

structure DirEntry where
  name : String
  isDirectory : Bool
deriving Repr, DecidableEq

/-- The hidden-dotfile test `entry.name?.startsWith(".")` (App.tsx line
70); with the one-character marker "." starting with the marker is
exactly the first-character test, which keeps the embedding
kernel-computable. -/
def isHidden (s : String) : Bool :=
  s.data.head? = some '.'

/-- `BATCH_SIZE` (App.tsx line 59). -/
def batchSize : Nat := 50

/-- `await join(selected, entry.name)` (App.tsx line 76), modelled as
separator concatenation. -/
def joinPath (base entryName : String) : String :=
  base ++ "/" ++ entryName

/-- An entry survives the hidden-dotfile skip (App.tsx lines 70-72). -/
def visible (e : DirEntry) : Bool :=
  !(isHidden e.name)

/-- The item pushed for a successfully probed entry
(App.tsx lines 79-84). -/
def entryItem (selected : String) (e : DirEntry) (sz : Nat) : FileSystemItem :=
  ⟨e.name, joinPath selected e.name, sz, e.isDirectory⟩

structure ScanState where
  newItems : List FileSystemItem
  processedCount : Nat
  failedCount : Nat
  uiItems : List FileSystemItem
  probes : List String
  abortedEarly : Bool
deriving Repr, DecidableEq

def initialState : ScanState := ⟨[], 0, 0, [], [], false⟩

/-- The entry loop (App.tsx lines 63-97).  `i` is the iteration index,
`total` is `entries.length` used by the batch condition. -/
def scanLoop (selected : String) (probe : String → Option Nat) (sig : Nat → Bool)
    (total : Nat) : List DirEntry → Nat → ScanState → ScanState
  | [], _, s => s
  | e :: rest, i, s =>
    if sig i then { s with abortedEarly := true }
    else if isHidden e.name then
      scanLoop selected probe sig total rest (i + 1) s
    else
      match probe (joinPath selected e.name) with
      | some sz =>
          scanLoop selected probe sig total rest (i + 1)
            { s with
                newItems := s.newItems ++ [entryItem selected e sz],
                processedCount := s.processedCount + 1,
                uiItems :=
                  if (s.processedCount + 1) % batchSize = 0 ∨
                      s.processedCount + 1 = total then
                    sortItems (s.newItems ++ [entryItem selected e sz])
                  else s.uiItems,
                probes := s.probes ++ [joinPath selected e.name] }
      | none =>
          scanLoop selected probe sig total rest (i + 1)
            { s with
                failedCount := s.failedCount + 1,
                probes := s.probes ++ [joinPath selected e.name] }

inductive ScanStatus where
  | completed
  | aborted
  | failed
deriving Repr, DecidableEq

structure ScanResult where
  items : List FileSystemItem
  error : Option String
  processedCount : Nat
  failedCount : Nat
  probes : List String
  status : ScanStatus
deriving Repr, DecidableEq

/-- `setError("Failed to scan folder: " + err)` (App.tsx line 112). -/
def scanFailedMsg (err : String) : String :=
  "Failed to scan folder: " ++ err

/-- The fixed all-entries-failed message (App.tsx lines 104-106); note
it does not mention the failure count. -/
def metadataErrorMsg : String :=
  "Couldn't read item metadata. Check permissions or path construction. If this persists, ensure the app can access your Desktop paths."

/-- `scanFolder` after folder selection (App.tsx lines 46-116):
`setItems([])` clears the listing before `readDir` is attempted, so a
listing failure leaves the items empty; an aborted loop returns without
the final sort or the error check; a completed loop sets the sorted
items and surfaces the fixed message only when entries exist, none
succeeded and every entry failed (line 103). -/
def scanFolder (selected : String) (listing : Except String (List DirEntry))
    (probe : String → Option Nat) (sig : Nat → Bool) : ScanResult :=
  match listing with
  | .error err => ⟨[], some (scanFailedMsg err), 0, 0, [], .failed⟩
  | .ok entries =>
    let s := scanLoop selected probe sig entries.length entries 0 initialState
    if s.abortedEarly then
      ⟨s.uiItems, none, s.processedCount, s.failedCount, s.probes, .aborted⟩
    else
      ⟨sortItems s.newItems,
        if 0 < entries.length ∧ s.newItems.length = 0 ∧
            s.failedCount = entries.length then
          some metadataErrorMsg
        else none,
        s.processedCount, s.failedCount, s.probes, .completed⟩

/-- Closed form of the items accumulated by an un-aborted loop: one item
per visible entry whose probe succeeds, in listing order. -/
def scanItems (selected : String) (probe : String → Option Nat)
    (entries : List DirEntry) : List FileSystemItem :=
  entries.filterMap fun e =>
    if visible e then (probe (joinPath selected e.name)).map (entryItem selected e)
    else none

/-- Visible entries whose probe fails. -/
def failedEntries (selected : String) (probe : String → Option Nat)
    (entries : List DirEntry) : List DirEntry :=
  entries.filter fun e => visible e && (probe (joinPath selected e.name)).isNone

/-- Full paths probed for a list of entries, in listing order. -/
def probedPaths (selected : String) (entries : List DirEntry) : List String :=
  (entries.filter visible).map fun e => joinPath selected e.name

lemma scanLoop_no_abort (selected : String) (probe : String → Option Nat)
    (total : Nat) (entries : List DirEntry) :
    ∀ (i : Nat) (s : ScanState),
      (scanLoop selected probe (fun _ => false) total entries i s).newItems
          = s.newItems ++ scanItems selected probe entries ∧
        (scanLoop selected probe (fun _ => false) total entries i s).failedCount
          = s.failedCount + (failedEntries selected probe entries).length ∧
        (scanLoop selected probe (fun _ => false) total entries i s).probes
          = s.probes ++ probedPaths selected entries ∧
        (scanLoop selected probe (fun _ => false) total entries i s).abortedEarly
          = s.abortedEarly ∧
        (scanLoop selected probe (fun _ => false) total entries i s).processedCount
          = s.processedCount + (scanItems selected probe entries).length := by
  induction entries with
  | nil =>
    intro i s
    simp [scanLoop, scanItems, failedEntries, probedPaths]
  | cons e rest ih =>
    intro i s
    by_cases hv : isHidden e.name
    · have hvis : visible e = false := by simp [visible, hv]
      simpa [scanLoop, scanItems, failedEntries, probedPaths, hv, hvis]
        using ih (i + 1) s
    · have hvis : visible e = true := by simp [visible, hv]
      cases hp : probe (joinPath selected e.name) with
      | some sz =>
        simp [scanLoop, hv, hp, ih, scanItems, failedEntries, probedPaths, hvis,
          List.append_assoc, Nat.add_assoc, Nat.add_left_comm, Nat.add_comm]
      | none =>
        simp [scanLoop, hv, hp, ih, scanItems, failedEntries, probedPaths, hvis,
          List.append_assoc, Nat.add_assoc, Nat.add_left_comm, Nat.add_comm]

/-- Closed form of a full, un-aborted scan: the reported record is
determined by the visible entries and their probe outcomes. -/
lemma scanFolder_ok_eq (selected : String) (probe : String → Option Nat)
    (entries : List DirEntry) :
    scanFolder selected (Except.ok entries) probe (fun _ => false) =
      ⟨sortItems (scanItems selected probe entries),
        if 0 < entries.length ∧ (scanItems selected probe entries).length = 0 ∧
            (failedEntries selected probe entries).length = entries.length then
          some metadataErrorMsg
        else none,
        (scanItems selected probe entries).length,
        (failedEntries selected probe entries).length,
        probedPaths selected entries,
        ScanStatus.completed⟩ := by
  obtain ⟨h1, h2, h3, h4, h5⟩ :=
    scanLoop_no_abort selected probe entries.length entries 0 initialState
  simp only [initialState] at h1 h2 h3 h4 h5
  simp [scanFolder, initialState, h1, h2, h3, h4, h5]

/-- C2: a probe failure on one entry is non-fatal: the scan completes
(status `completed`, never `failed`), the final listing is exactly the
sorted list of the visible entries whose probe succeeded — so every
other readable non-hidden entry still appears with its size and each
failing entry is simply omitted — and the failure count records the
failing entries. -/
theorem scanFolder_probe_failure_nonfatal (selected : String)
    (entries : List DirEntry) (probe : String → Option Nat) :
    (scanFolder selected (Except.ok entries) probe (fun _ => false)).items
        = sortItems (scanItems selected probe entries) ∧
      (scanFolder selected (Except.ok entries) probe (fun _ => false)).status
        = ScanStatus.completed ∧
      (scanFolder selected (Except.ok entries) probe (fun _ => false)).failedCount
        = (failedEntries selected probe entries).length ∧
      ∀ e ∈ entries, ∀ sz, visible e = true →
        probe (joinPath selected e.name) = some sz →
          entryItem selected e sz ∈
            (scanFolder selected (Except.ok entries) probe (fun _ => false)).items := by
  rw [scanFolder_ok_eq]
  refine ⟨rfl, rfl, rfl, ?_⟩
  intro e he sz hvis hp
  have hmem : entryItem selected e sz ∈ scanItems selected probe entries := by
    rw [scanItems, List.mem_filterMap]
    exact ⟨e, he, by simp [hvis, hp]⟩
  simpa [sortItems] using hmem

/-- Concrete input for the C3 counterexample: one readable and one
unreadable entry. -/
def rootC3 : String := "/root"

def entryOK : DirEntry := ⟨"good.txt", false⟩

def entryBad : DirEntry := ⟨"bad.txt", false⟩

def probeC3 : String → Option Nat :=
  fun p => if p = joinPath rootC3 entryOK.name then some 100 else none

/-- C3 counterexample: a scan with one probe failure and one success
completes with `failedCount = 1`, yet surfaces no error at all
(`error = none`) — the failure count is not reported to the user. -/
theorem scanFolder_errorCount_unreported :
    (scanFolder rootC3 (Except.ok [entryOK, entryBad]) probeC3
        (fun _ => false)).failedCount = 1 ∧
      (scanFolder rootC3 (Except.ok [entryOK, entryBad]) probeC3
        (fun _ => false)).error = none ∧
      (scanFolder rootC3 (Except.ok [entryOK, entryBad]) probeC3
        (fun _ => false)).items ≠ [] := by
  decide

/-- C3 amended: the per-entry failure count is tracked but never
reported; the only error a completed scan surfaces is the fixed
metadata message (which does not contain the count), shown exactly when
entries were listed, none succeeded and every listed entry failed; in
particular a scan with some successes surfaces no error despite its
failures.  The first conjunct is the full characterization: the message
appears if and only if the listing was nonempty, no visible entry
succeeded and every listed entry failed. -/
theorem scanFolder_error_only_when_all_failed (selected : String)
    (entries : List DirEntry) (probe : String → Option Nat) :
    ((scanFolder selected (Except.ok entries) probe (fun _ => false)).error
          = some metadataErrorMsg ↔
        0 < entries.length ∧ scanItems selected probe entries = [] ∧
          (failedEntries selected probe entries).length = entries.length) ∧
      (∀ msg,
        (scanFolder selected (Except.ok entries) probe (fun _ => false)).error = some msg →
          msg = metadataErrorMsg ∧
            (scanFolder selected (Except.ok entries) probe (fun _ => false)).items = [] ∧
            0 < entries.length ∧
            (scanFolder selected (Except.ok entries) probe (fun _ => false)).failedCount
              = entries.length) ∧
      ((scanFolder selected (Except.ok entries) probe (fun _ => false)).items ≠ [] →
        (scanFolder selected (Except.ok entries) probe (fun _ => false)).error = none) := by
  have herr : (scanFolder selected (Except.ok entries) probe (fun _ => false)).error
      = if 0 < entries.length ∧ (scanItems selected probe entries).length = 0 ∧
            (failedEntries selected probe entries).length = entries.length then
          some metadataErrorMsg
        else none := by
    rw [scanFolder_ok_eq]
  have hitems : (scanFolder selected (Except.ok entries) probe (fun _ => false)).items
      = sortItems (scanItems selected probe entries) := by
    rw [scanFolder_ok_eq]
  have hfail : (scanFolder selected (Except.ok entries) probe (fun _ => false)).failedCount
      = (failedEntries selected probe entries).length := by
    rw [scanFolder_ok_eq]
  by_cases hc : 0 < entries.length ∧ (scanItems selected probe entries).length = 0 ∧
      (failedEntries selected probe entries).length = entries.length
  · have hnil : scanItems selected probe entries = [] :=
      List.length_eq_zero.mp hc.2.1
    have hitems0 : (scanFolder selected (Except.ok entries) probe
        (fun _ => false)).items = [] := by
      rw [hitems, hnil]
      rfl
    refine ⟨?_, ?_, ?_⟩
    · rw [herr, if_pos hc]
      exact ⟨fun _ => ⟨hc.1, hnil, hc.2.2⟩, fun _ => rfl⟩
    · intro msg hmsg
      rw [herr, if_pos hc] at hmsg
      exact ⟨(Option.some.injEq _ _).mp hmsg.symm, hitems0, hc.1,
        by rw [hfail]; exact hc.2.2⟩
    · intro hne
      exact absurd hitems0 hne
  · refine ⟨?_, ?_, ?_⟩
    · rw [herr, if_neg hc]
      constructor
      · intro h
        exact absurd h (by simp)
      · intro h
        exact absurd ⟨h.1, by simp [h.2.1], h.2.2⟩ hc
    · intro msg hmsg
      rw [herr, if_neg hc] at hmsg
      exact absurd hmsg (by simp)
    · intro _
      rw [herr, if_neg hc]

/-- A probe that fails on every path. -/
def probeFail : String → Option Nat := fun _ => none

/-- Witness for the amended C3, exercising both directions: when every
entry of the same listing fails, the fixed message is surfaced and the
listing is empty; when one entry succeeds, no error is surfaced. -/
theorem scanFolder_error_only_when_all_failed_witness :
    (scanFolder rootC3 (Except.ok [entryOK, entryBad]) probeFail
        (fun _ => false)).error = some metadataErrorMsg ∧
      (scanFolder rootC3 (Except.ok [entryOK, entryBad]) probeFail
        (fun _ => false)).items = [] ∧
      (scanFolder rootC3 (Except.ok [entryOK, entryBad]) probeC3
        (fun _ => false)).error = none :=
  have hall := scanFolder_error_only_when_all_failed rootC3 [entryOK, entryBad] probeFail
  have herr : (scanFolder rootC3 (Except.ok [entryOK, entryBad]) probeFail
      (fun _ => false)).error = some metadataErrorMsg :=
    hall.1.mpr (by decide)
  ⟨herr, (hall.2.1 metadataErrorMsg herr).2.1,
    (scanFolder_error_only_when_all_failed rootC3 [entryOK, entryBad] probeC3).2.2
      (by decide)⟩

/-- C5: if the root directory listing itself fails, the scan fails as a
whole: status `failed`, the error is reported, the items list is empty
(it was cleared before the listing was attempted and nothing was ever
added) and no entry was probed. -/
theorem scanFolder_root_unreadable_fatal (selected err : String)
    (probe : String → Option Nat) (sig : Nat → Bool) :
    (scanFolder selected (Except.error err) probe sig).items = [] ∧
      (scanFolder selected (Except.error err) probe sig).status = ScanStatus.failed ∧
      (scanFolder selected (Except.error err) probe sig).error
        = some (scanFailedMsg err) ∧
      (scanFolder selected (Except.error err) probe sig).probes = [] :=
  ⟨rfl, rfl, rfl, rfl⟩

/-- C8: the scan-and-sort pipeline is deterministic — the same listing
and per-entry sizes give the same result — and sorting is idempotent:
`sortItems` applied to an already-sorted list (in particular to the
final reported listing) returns it unchanged. -/
theorem scanPipeline_deterministic_idempotent (selected : String)
    (entries : List DirEntry) (probe : String → Option Nat)
    (xs : List FileSystemItem) :
    scanFolder selected (Except.ok entries) probe (fun _ => false)
        = scanFolder selected (Except.ok entries) probe (fun _ => false) ∧
      sortItems (sortItems xs) = sortItems xs ∧
      sortItems (scanFolder selected (Except.ok entries) probe (fun _ => false)).items
        = (scanFolder selected (Except.ok entries) probe (fun _ => false)).items := by
  refine ⟨rfl, sortItems_idem xs, ?_⟩
  rw [scanFolder_ok_eq]
  exact sortItems_idem (scanItems selected probe entries)

lemma scanLoop_stops (selected : String) (probe : String → Option Nat)
    (sig : Nat → Bool) (total : Nat) :
    ∀ (entries : List DirEntry) (i0 : Nat) (s : ScanState) (k : Nat),
      k < entries.length → sig (i0 + k) = true →
        (scanLoop selected probe sig total entries i0 s).abortedEarly = true := by
  intro entries
  induction entries with
  | nil =>
    intro i0 s k hk
    exact absurd hk (by simp)
  | cons e rest ih =>
    intro i0 s k hk hsig
    by_cases h0 : sig i0
    · simp [scanLoop, h0]
    · cases k with
      | zero =>
        rw [Nat.add_zero] at hsig
        exact absurd hsig (by simpa using h0)
      | succ m =>
        have hm : m < rest.length := by simpa using Nat.lt_of_succ_lt_succ hk
        have hsig' : sig (i0 + 1 + m) = true := by
          rwa [show i0 + (m + 1) = i0 + 1 + m by omega] at hsig
        by_cases hv : isHidden e.name
        · simpa [scanLoop, h0, hv] using ih (i0 + 1) s m hm hsig'
        · cases hpr : probe (joinPath selected e.name) with
          | some sz => simpa [scanLoop, h0, hv, hpr] using ih (i0 + 1) _ m hm hsig'
          | none => simpa [scanLoop, h0, hv, hpr] using ih (i0 + 1) _ m hm hsig'

lemma scanLoop_probes_bound (selected : String) (probe : String → Option Nat)
    (sig : Nat → Bool) (total : Nat) (i : Nat) (hsig : sig i = true) :
    ∀ (entries : List DirEntry) (i0 : Nat) (s : ScanState), i0 ≤ i →
      ∀ p ∈ (scanLoop selected probe sig total entries i0 s).probes,
        p ∈ s.probes ∨
          ∃ k, i0 + k < i ∧ ∃ e, entries.get? k = some e ∧ visible e = true ∧
            p = joinPath selected e.name := by
  intro entries
  induction entries with
  | nil =>
    intro i0 s _ p hp
    exact Or.inl (by simpa [scanLoop] using hp)
  | cons e rest ih =>
    intro i0 s hle p hp
    by_cases h0 : sig i0
    · exact Or.inl (by simpa [scanLoop, h0] using hp)
    · have hi0 : i0 < i := lt_of_le_of_ne hle fun he => h0 (he ▸ hsig)
      by_cases hv : isHidden e.name
      · simp only [scanLoop, h0, hv, Bool.false_eq_true, if_false, if_true,
          ite_true, ite_false] at hp
        rcases ih (i0 + 1) s (by omega) p hp with hmem | ⟨k, hk, e', hget, hvis, hpe⟩
        · exact Or.inl hmem
        · exact Or.inr ⟨k + 1, by omega, e', by simpa using hget, hvis, hpe⟩
      · have hvis : visible e = true := by simp [visible, hv]
        have step : ∀ (s' : ScanState),
            s'.probes = s.probes ++ [joinPath selected e.name] →
            (∀ q ∈ (scanLoop selected probe sig total rest (i0 + 1) s').probes,
              q ∈ s'.probes ∨
                ∃ k, i0 + 1 + k < i ∧ ∃ e', rest.get? k = some e' ∧
                  visible e' = true ∧ q = joinPath selected e'.name) →
            p ∈ (scanLoop selected probe sig total rest (i0 + 1) s').probes →
            p ∈ s.probes ∨
              ∃ k, i0 + k < i ∧ ∃ e', (e :: rest).get? k = some e' ∧
                visible e' = true ∧ p = joinPath selected e'.name := by
          intro s' hs' hbound hp'
          rcases hbound p hp' with hmem | ⟨k, hk, e', hget, hvis', hpe⟩
          · rw [hs', List.mem_append] at hmem
            rcases hmem with hmem | hmem
            · exact Or.inl hmem
            · exact Or.inr ⟨0, by omega, e, by simp, hvis,
                by simpa using hmem⟩
          · exact Or.inr ⟨k + 1, by omega, e', by simpa using hget, hvis', hpe⟩
        cases hpr : probe (joinPath selected e.name) with
        | some sz =>
          simp only [scanLoop, h0, hv, hpr, Bool.false_eq_true, if_false, if_true,
            ite_true, ite_false] at hp
          exact step _ (by simp) (fun q hq => ih (i0 + 1) _ (by omega) q hq) hp
        | none =>
          simp only [scanLoop, h0, hv, hpr, Bool.false_eq_true, if_false, if_true,
            ite_true, ite_false] at hp
          exact step _ (by simp) (fun q hq => ih (i0 + 1) _ (by omega) q hq) hp

/-- C4: cancellation is cooperative and observed at per-entry dispatch
boundaries: if the abort signal is set when iteration `i` of the loop
is dispatched (for `i` inside the listing), the scan stops with status
`aborted`, and every probe (path join + size lookup) ever started
belongs to an entry strictly before some index `≤ i` — no probe is
started for any remaining entry; the signal itself is an input the
probes never receive. -/
theorem scanFolder_cancellation_cooperative (selected : String)
    (entries : List DirEntry) (probe : String → Option Nat) (sig : Nat → Bool)
    (i : Nat) (hsig : sig i = true) (hlt : i < entries.length) :
    (scanFolder selected (Except.ok entries) probe sig).status = ScanStatus.aborted ∧
      ∀ p ∈ (scanFolder selected (Except.ok entries) probe sig).probes,
        ∃ k, k < i ∧ ∃ e, entries.get? k = some e ∧ visible e = true ∧
          p = joinPath selected e.name := by
  have hab : (scanLoop selected probe sig entries.length entries 0
      initialState).abortedEarly = true :=
    scanLoop_stops selected probe sig entries.length entries 0 initialState i hlt
      (by simpa using hsig)
  constructor
  · simp [scanFolder, hab]
  · intro p hp
    have hp' : p ∈ (scanLoop selected probe sig entries.length entries 0
        initialState).probes := by
      simpa [scanFolder, hab] using hp
    rcases scanLoop_probes_bound selected probe sig entries.length i hsig entries 0
        initialState (Nat.zero_le i) p hp' with hmem | ⟨k, hk, he⟩
    · exact absurd hmem (by simp [initialState])
    · exact ⟨k, by simpa using hk, he⟩

def abortRoot : String := "/scan"

def abortEntries : List DirEntry :=
  [⟨"one.txt", false⟩, ⟨"two.txt", false⟩, ⟨"three.txt", false⟩]

/-- A signal that becomes set at iteration 2. -/
def abortSig : Nat → Bool := fun j => decide (2 ≤ j)

def abortProbe : String → Option Nat := fun _ => some 1

/-- Witness for C4 at a concrete scan whose signal is observed set at
iteration 2 of 3. -/
theorem scanFolder_cancellation_cooperative_witness :
    (scanFolder abortRoot (Except.ok abortEntries) abortProbe abortSig).status
        = ScanStatus.aborted ∧
      ∀ p ∈ (scanFolder abortRoot (Except.ok abortEntries) abortProbe abortSig).probes,
        ∃ k, k < 2 ∧ ∃ e, abortEntries.get? k = some e ∧ visible e = true ∧
          p = joinPath abortRoot e.name :=
  scanFolder_cancellation_cooperative abortRoot abortEntries abortProbe abortSig 2
    (by decide) (by decide)

lemma scanLoop_visibility (selected : String) (probe : String → Option Nat)
    (sig : Nat → Bool) (total : Nat) (Q : String → Prop) :
    ∀ (entries : List DirEntry) (i0 : Nat) (s : ScanState),
      (∀ e ∈ entries, visible e = true → Q (joinPath selected e.name)) →
      (∀ it ∈ s.newItems, isHidden it.name = false) →
      (∀ it ∈ s.uiItems, isHidden it.name = false) →
      (∀ p ∈ s.probes, Q p) →
      s.processedCount + s.failedCount = s.probes.length →
      ((∀ it ∈ (scanLoop selected probe sig total entries i0 s).newItems,
          isHidden it.name = false) ∧
        (∀ it ∈ (scanLoop selected probe sig total entries i0 s).uiItems,
          isHidden it.name = false) ∧
        (∀ p ∈ (scanLoop selected probe sig total entries i0 s).probes, Q p) ∧
        (scanLoop selected probe sig total entries i0 s).processedCount +
            (scanLoop selected probe sig total entries i0 s).failedCount
          = (scanLoop selected probe sig total entries i0 s).probes.length) := by
  intro entries
  induction entries with
  | nil =>
    intro i0 s _ h1 h2 h3 h4
    exact ⟨by simpa [scanLoop] using h1, by simpa [scanLoop] using h2,
      by simpa [scanLoop] using h3, by simpa [scanLoop] using h4⟩
  | cons e rest ih =>
    intro i0 s hQ h1 h2 h3 h4
    have hQ' : ∀ e' ∈ rest, visible e' = true → Q (joinPath selected e'.name) :=
      fun e' he' => hQ e' (List.mem_cons_of_mem e he')
    by_cases h0 : sig i0
    · refine ⟨?_, ?_, ?_, ?_⟩ <;> simp only [scanLoop, h0, if_true, ite_true] <;>
        first
          | exact h1
          | exact h2
          | exact h3
          | exact h4
    · by_cases hv : isHidden e.name
      · have := ih (i0 + 1) s hQ' h1 h2 h3 h4
        simpa [scanLoop, h0, hv] using this
      · have hvis : visible e = true := by simp [visible, hv]
        have hQe : Q (joinPath selected e.name) :=
          hQ e (List.mem_cons_self e rest) hvis
        cases hpr : probe (joinPath selected e.name) with
        | some sz =>
          have h1' : ∀ it ∈ s.newItems ++ [entryItem selected e sz],
              isHidden it.name = false := by
            intro it hit
            rcases List.mem_append.mp hit with hit | hit
            · exact h1 it hit
            · have : it = entryItem selected e sz := by simpa using hit
              rw [this]
              simpa [entryItem] using hv
          have h2' : ∀ it ∈
              (if (s.processedCount + 1) % batchSize = 0 ∨
                  s.processedCount + 1 = total then
                sortItems (s.newItems ++ [entryItem selected e sz])
              else s.uiItems),
              isHidden it.name = false := by
            intro it hit
            by_cases hb : (s.processedCount + 1) % batchSize = 0 ∨
                s.processedCount + 1 = total
            · rw [if_pos hb] at hit
              exact h1' it (by simpa [sortItems] using hit)
            · rw [if_neg hb] at hit
              exact h2 it hit
          have h3' : ∀ p ∈ s.probes ++ [joinPath selected e.name], Q p := by
            intro p hp
            rcases List.mem_append.mp hp with hp | hp
            · exact h3 p hp
            · have hpe : p = joinPath selected e.name := by simpa using hp
              rw [hpe]
              exact hQe
          have h := ih (i0 + 1)
            { s with
                newItems := s.newItems ++ [entryItem selected e sz],
                processedCount := s.processedCount + 1,
                uiItems :=
                  if (s.processedCount + 1) % batchSize = 0 ∨
                      s.processedCount + 1 = total then
                    sortItems (s.newItems ++ [entryItem selected e sz])
                  else s.uiItems,
                probes := s.probes ++ [joinPath selected e.name] }
            hQ' h1' h2' h3' (by simp; omega)
          simpa [scanLoop, h0, hv, hpr] using h
        | none =>
          have h3' : ∀ p ∈ s.probes ++ [joinPath selected e.name], Q p := by
            intro p hp
            rcases List.mem_append.mp hp with hp | hp
            · exact h3 p hp
            · have hpe : p = joinPath selected e.name := by simpa using hp
              rw [hpe]
              exact hQe
          have h := ih (i0 + 1)
            { s with
                failedCount := s.failedCount + 1,
                probes := s.probes ++ [joinPath selected e.name] }
            hQ' h1 h2 h3' (by simp; omega)
          simpa [scanLoop, h0, hv, hpr] using h

/-- C6: hidden dotfile entries are skipped entirely: every reported item
has a non-hidden name, every probe that was started came from a visible
(non-hidden) entry, and the processed/failed counters count exactly the
probes — so a hidden entry is never probed, never counted and never
listed. -/
theorem scanFolder_skips_hidden (selected : String) (entries : List DirEntry)
    (probe : String → Option Nat) (sig : Nat → Bool) :
    (∀ it ∈ (scanFolder selected (Except.ok entries) probe sig).items,
        isHidden it.name = false) ∧
      (∀ p ∈ (scanFolder selected (Except.ok entries) probe sig).probes,
        ∃ e, e ∈ entries ∧ visible e = true ∧ p = joinPath selected e.name) ∧
      (scanFolder selected (Except.ok entries) probe sig).processedCount +
          (scanFolder selected (Except.ok entries) probe sig).failedCount
        = (scanFolder selected (Except.ok entries) probe sig).probes.length := by
  obtain ⟨h1, h2, h3, h4⟩ :=
    scanLoop_visibility selected probe sig entries.length
      (fun p => ∃ e, e ∈ entries ∧ visible e = true ∧ p = joinPath selected e.name)
      entries 0 initialState
      (fun e he hv => ⟨e, he, hv, rfl⟩)
      (by simp [initialState]) (by simp [initialState]) (by simp [initialState])
      (by simp [initialState])
  by_cases hab : (scanLoop selected probe sig entries.length entries 0
      initialState).abortedEarly
  · refine ⟨?_, ?_, ?_⟩
    · intro it hit
      exact h2 it (by simpa [scanFolder, hab] using hit)
    · intro p hp
      exact h3 p (by simpa [scanFolder, hab] using hp)
    · simpa [scanFolder, hab] using h4
  · refine ⟨?_, ?_, ?_⟩
    · intro it hit
      have hit' : it ∈ (scanLoop selected probe sig entries.length entries 0
          initialState).newItems := by
        simpa [scanFolder, hab, sortItems] using hit
      exact h1 it hit'
    · intro p hp
      exact h3 p (by simpa [scanFolder, hab] using hp)
    · simpa [scanFolder, hab] using h4

/-!
`formatFileSize` (src/src/lib/utils.ts lines 15-21).  The source renders
the quotient with IEEE-double division and `Number.prototype.toFixed(2)`;
the embedding renders the exact rational quotient rounded half-up to two
decimals.  Every branch condition compares exact integers, so the unit
selection — which is what is proved below — is identical; only rendered
digits could differ in corner cases of double rounding.
-/

/-- `(num / den).toFixed(2)` on the exact quotient: round half up to two
decimals and print a two-digit fraction. -/
def toFixed2 (num den : Nat) : String :=
  let scaled := (num * 200 + den) / (den * 2)
  toString (scaled / 100) ++ "." ++
    (if scaled % 100 < 10 then ("0") else ("")) ++ toString (scaled % 100)

/-- `formatFileSize` (utils.ts lines 15-21). -/
def formatFileSize (bytes : Nat) : String :=
  if bytes = 0 then ("0 Bytes")
  else if bytes < 1024 then (toString bytes ++ " Bytes")
  else if bytes < 1024 ^ 2 then (toFixed2 bytes 1024 ++ " KB")
  else if bytes < 1024 ^ 3 then (toFixed2 bytes (1024 ^ 2) ++ " MB")
  else (toFixed2 bytes (1024 ^ 3) ++ " GB")

/-- C10: `formatFileSize` is total on naturals and its unit choice is
exhaustive at 1024-power boundaries: "0 Bytes" at 0, a plain byte count
with unit "Bytes" below 1024, "KB" below 1024^2, "MB" below 1024^3, and
"GB" for everything at or above 1024^3 — there is no larger unit, so
arbitrarily large inputs are still rendered in GB. -/
theorem formatFileSize_unit_exhaustive (b : Nat) :
    (b = 0 → formatFileSize b = "0 Bytes") ∧
      (0 < b → b < 1024 → formatFileSize b = toString b ++ " Bytes") ∧
      (1024 ≤ b → b < 1024 ^ 2 → ∃ q, formatFileSize b = q ++ " KB") ∧
      (1024 ^ 2 ≤ b → b < 1024 ^ 3 → ∃ q, formatFileSize b = q ++ " MB") ∧
      (1024 ^ 3 ≤ b → ∃ q, formatFileSize b = q ++ " GB") := by
  have e2 : (1024 : Nat) ^ 2 = 1048576 := by norm_num
  have e3 : (1024 : Nat) ^ 3 = 1073741824 := by norm_num
  refine ⟨?_, ?_, ?_, ?_, ?_⟩
  · intro h
    simp [formatFileSize, h]
  · intro h1 h2
    have h0 : ¬b = 0 := by omega
    simp [formatFileSize, h0, h2]
  · intro h1 h2
    rw [e2] at h2
    have h0 : ¬b = 0 := by omega
    have hlt : ¬b < 1024 := by omega
    exact ⟨toFixed2 b 1024, by simp [formatFileSize, h0, hlt, h2]⟩
  · intro h1 h2
    rw [e2] at h1
    rw [e3] at h2
    have h0 : ¬b = 0 := by omega
    have hlt : ¬b < 1024 := by omega
    have hlt2 : ¬b < 1048576 := by omega
    exact ⟨toFixed2 b (1024 ^ 2), by simp [formatFileSize, h0, hlt, hlt2, h2]⟩
  · intro h1
    rw [e3] at h1
    have h0 : ¬b = 0 := by omega
    have hlt : ¬b < 1024 := by omega
    have hlt2 : ¬b < 1048576 := by omega
    have hlt3 : ¬b < 1073741824 := by omega
    exact ⟨toFixed2 b (1024 ^ 3), by simp [formatFileSize, h0, hlt, hlt2, hlt3]⟩

/-- Witness for C10 at one input per unit branch, including an input far
above 1024^3 (5 · 1024^4) still rendered in GB. -/
theorem formatFileSize_unit_exhaustive_witness :
    formatFileSize 0 = "0 Bytes" ∧
      formatFileSize 512 = toString 512 ++ " Bytes" ∧
      (∃ q, formatFileSize 2048 = q ++ " KB") ∧
      (∃ q, formatFileSize (3 * 1024 ^ 2) = q ++ " MB") ∧
      (∃ q, formatFileSize (5 * 1024 ^ 4) = q ++ " GB") :=
  ⟨(formatFileSize_unit_exhaustive 0).1 rfl,
    (formatFileSize_unit_exhaustive 512).2.1 (by norm_num) (by norm_num),
    (formatFileSize_unit_exhaustive 2048).2.2.1 (by norm_num) (by norm_num),
    (formatFileSize_unit_exhaustive (3 * 1024 ^ 2)).2.2.2.1 (by norm_num) (by norm_num),
    (formatFileSize_unit_exhaustive (5 * 1024 ^ 4)).2.2.2.2 (by norm_num)⟩
